import Mathlib

/-!
Shallow embedding of the token/session engine of `takentui/authorization_types`:
the session-authority variant in `app/services/auth.py`, the role gate in
`app/services/business_logic.py` and the user store in `app/services/users.py`.

Modelling conventions:
* Python dicts become association lists (`List (String × α)`) with unique keys
  kept in insertion order; `dict[k] = v` updates in place when the key exists
  and appends otherwise; `del dict[k]` removes the key.
* `datetime` values become integer Unix timestamps; each operation takes one
  clock reading `now` covering its `datetime.now(timezone.utc)` calls.
* The PyJWT codec is an oracle: the outcome of `jwt.decode(token, key, ["HS256"])`
  on the given string and time is passed in as a `DecodeResult`; random draws
  (`uuid.uuid4()`, `secrets.token_urlsafe`) are passed in as string arguments.
* `raise HTTPException` becomes an `Except HTTPError` result, paired with the
  post-state of the mutated store.
-/

namespace Auth

/-- A claim value as it appears in the JWT payload dict of `create_jwt_token`. -/
inductive JVal where
  | str (s : String)
  | num (n : Int)
deriving DecidableEq, Repr

/-- Python dict lookup on the association-list model: first binding wins
(bindings are unique in any state reachable from dict operations). -/
def lookupKey {α : Type} : List (String × α) → String → Option α
  | [], _ => none
  | (k, v) :: rest, key => if k = key then some v else lookupKey rest key

/-- Python `key in dict`. -/
def hasKey {α : Type} (m : List (String × α)) (k : String) : Bool :=
  (lookupKey m k).isSome

/-- Python `dict[key] = value`: update the binding in place when the key exists,
else append the new binding at the end (dicts keep insertion order). -/
def setKey {α : Type} : List (String × α) → String → α → List (String × α)
  | [], key, v => [(key, v)]
  | (k, w) :: rest, key, v =>
    if k = key then (key, v) :: rest else (k, w) :: setKey rest key v

/-- Python `del dict[key]`, total (a no-op when the key is absent, which is also
the guarded behaviour of `revoke_refresh_token`). -/
def delKey {α : Type} (m : List (String × α)) (k : String) : List (String × α) :=
  m.filter (fun p => p.1 ≠ k)

/-- `app.models.RefreshTokenInfo`: the record stored per refresh token.
`sub` is kept as its string form (`str(info.sub)` is what the code compares). -/
structure RefreshTokenInfo where
  sub : String
  exp : Int
  is_remember_me : Bool
deriving DecidableEq, Repr

/-- `fastapi.HTTPException` as raised by the service layer. -/
structure HTTPError where
  status_code : Nat
  detail : String
deriving DecidableEq, Repr

/-- The fields of a decoded JWT payload that the session code reads:
`payload.get("sub")` and `payload.get("exp")`. -/
structure Claims where
  sub : Option String
  exp : Option Int
deriving DecidableEq, Repr

/-- Outcome of `jwt.decode(token, key, ["HS256"])` on a given string at a given
time: a payload, an `ExpiredSignatureError`, or another `InvalidTokenError`. -/
inductive DecodeResult where
  | ok (claims : Claims)
  | expiredSig
  | invalidTok
deriving DecidableEq, Repr

/-- The fields of `app.config.Settings` the session code reads. -/
structure Settings where
  ACCESS_EXPIRE_MINUTES : Int
  REFRESH_EXPIRE_REMEMBER_DAYS : Int
  REFRESH_EXPIRE_DEFAULT_DAYS : Int
  ROTATE_REFRESH : Bool
deriving DecidableEq, Repr

/-- The two module-level stores of `app/services/auth.py`. -/
structure AuthState where
  blacklisted_tokens : List (String × Int)
  refresh_tokens : List (String × RefreshTokenInfo)
deriving DecidableEq, Repr

/-- `cleanup_expired_blacklisted_tokens`: delete every blacklist entry whose
expiry satisfies `exp_time < current_time`. -/
def cleanup_expired_blacklisted_tokens (now : Int) (bl : List (String × Int)) :
    List (String × Int) :=
  bl.filter (fun p => !(decide (p.2 < now)))

/-- Truthiness of the `sub` argument (`if sub` in Python: not `None`, not `""`). -/
def subTruthy : Option String → Bool
  | none => false
  | some s => s ≠ ""

/-- The deletion condition of `cleanup_expired_refresh_tokens`:
`info.exp < current_time or (sub and str(info.sub) == sub)`. -/
def refreshExpiredOrSub (sub : Option String) (now : Int)
    (info : RefreshTokenInfo) : Bool :=
  decide (info.exp < now) || (subTruthy sub && decide (some info.sub = sub))

/-- `cleanup_expired_refresh_tokens(sub)`: delete every expired entry and, when
`sub` is truthy, every entry whose subject string equals `sub`. -/
def cleanup_expired_refresh_tokens (sub : Option String) (now : Int)
    (rt : List (String × RefreshTokenInfo)) : List (String × RefreshTokenInfo) :=
  rt.filter (fun p => !(refreshExpiredOrSub sub now p.2))

/-- `validate_refresh_token`: 401 "Invalid refresh token" when the string is not
a key of the store; when the entry's `exp < now`, delete it and raise 401
"Refresh token has expired"; otherwise return the record, store untouched. -/
def validate_refresh_token (now : Int) (rt : List (String × RefreshTokenInfo))
    (token : String) :
    Except HTTPError RefreshTokenInfo × List (String × RefreshTokenInfo) :=
  match lookupKey rt token with
  | none => (.error ⟨401, "Invalid refresh token"⟩, rt)
  | some info =>
    if info.exp < now then
      (.error ⟨401, "Refresh token has expired"⟩, delKey rt token)
    else
      (.ok info, rt)

/-- Refresh-token expiry chosen by `create_refresh_token` from the remember-me
flag (days converted to seconds). -/
def refreshExpire (s : Settings) (now : Int) (irm : Bool) : Int :=
  if irm then now + s.REFRESH_EXPIRE_REMEMBER_DAYS * 86400
  else now + s.REFRESH_EXPIRE_DEFAULT_DAYS * 86400

/-- `create_refresh_token`: store the record under the fresh random string
(`fresh` stands for the `uuid.uuid4()` draw), then run the plain expiry
cleanup; returns the token string with the new store. -/
def create_refresh_token (s : Settings) (uid : String) (irm : Bool)
    (fresh : String) (now : Int) (rt : List (String × RefreshTokenInfo)) :
    String × List (String × RefreshTokenInfo) :=
  (fresh,
   cleanup_expired_refresh_tokens none now
     (setKey rt fresh ⟨uid, refreshExpire s now irm, irm⟩))

/-- `app.models.RefreshTokenResponse` (the fields the refresh handler sets). -/
structure RefreshTokenResponse where
  access_token : String
  refresh_token : String
deriving DecidableEq, Repr

/-- `generate_refresh_token` (the refresh operation): validate the incoming
token, mint a new access token (`newAccess` stands for the `create_jwt_token`
output), and either rotate — store a fresh refresh token and delete the old
entry — or return the input string unchanged. -/
def generate_refresh_token (s : Settings) (now : Int)
    (rt : List (String × RefreshTokenInfo)) (token newAccess fresh : String) :
    Except HTTPError RefreshTokenResponse × List (String × RefreshTokenInfo) :=
  match validate_refresh_token now rt token with
  | (.error e, rt1) => (.error e, rt1)
  | (.ok info, rt1) =>
    if s.ROTATE_REFRESH then
      let r := create_refresh_token s info.sub info.is_remember_me fresh now rt1
      (.ok ⟨newAccess, r.1⟩, delKey r.2 token)
    else
      (.ok ⟨newAccess, token⟩, rt1)

/-- `revoke_refresh_token`: delete if present; no error if absent. -/
def revoke_refresh_token (rt : List (String × RefreshTokenInfo))
    (token : String) : List (String × RefreshTokenInfo) :=
  delKey rt token

/-- `blacklist_token`: when the token decodes, purge the refresh tokens of its
`sub` claim; then, when the `exp` claim is truthy, record the token until that
expiry and purge the blacklist. On `InvalidTokenError` — which covers
`ExpiredSignatureError` — nothing happens and no error escapes. -/
def blacklist_token (token : String) (d : DecodeResult) (now : Int)
    (st : AuthState) : AuthState :=
  match d with
  | .ok c =>
    let rt1 := cleanup_expired_refresh_tokens c.sub now st.refresh_tokens
    match c.exp with
    | some e =>
      if e ≠ 0 then
        { blacklisted_tokens :=
            cleanup_expired_blacklisted_tokens now
              (setKey st.blacklisted_tokens token e),
          refresh_tokens := rt1 }
      else { st with refresh_tokens := rt1 }
    | none => { st with refresh_tokens := rt1 }
  | _ => st

/-- `decode_jwt_token`: blacklist membership is checked first
(401 "Token has been revoked"); then the codec outcome is mapped to
401 "Token has expired" / 401 "Invalid token". -/
def decode_jwt_token (token : String) (d : DecodeResult)
    (bl : List (String × Int)) : Except HTTPError Claims :=
  if hasKey bl token then .error ⟨401, "Token has been revoked"⟩
  else
    match d with
    | .ok c => .ok c
    | .expiredSig => .error ⟨401, "Token has expired"⟩
    | .invalidTok => .error ⟨401, "Invalid token"⟩

/-- `get_current_user`: decode, then require a `sub` claim
(401 "Invalid token payload" when missing). -/
def get_current_user (token : String) (d : DecodeResult)
    (bl : List (String × Int)) : Except HTTPError String :=
  match decode_jwt_token token d bl with
  | .error e => .error e
  | .ok c =>
    match c.sub with
    | none => .error ⟨401, "Invalid token payload"⟩
    | some s => .ok s

/-- The spec's `logout(accessToken, refreshToken)` over this variant:
`blacklist_token` on the access token, then `revoke_refresh_token` on the
refresh token. -/
def logout (access refresh : String) (d : DecodeResult) (now : Int)
    (st : AuthState) : AuthState :=
  let st1 := blacklist_token access d now st
  { st1 with refresh_tokens := revoke_refresh_token st1.refresh_tokens refresh }

/-- The payload dict built by `create_jwt_token`, in source order:
`sub = str(uid)`, `exp = now + ACCESS_EXPIRE_MINUTES minutes`, `iat = now`,
`jti` standing for the `secrets.token_urlsafe(16)` draw, `type = "access"`. -/
def create_jwt_token_payload (uid jti : String) (now minutes : Int) :
    List (String × JVal) :=
  [("sub", .str uid),
   ("exp", .num (now + minutes * 60)),
   ("iat", .num now),
   ("jti", .str jti),
   ("type", .str "access")]

/-- The allow condition of the `roles` decorator in
`app/services/business_logic.py`: `set(user.roles) & access_roles` non-empty. -/
def roles_allowed (userRoles accessRoles : List String) : Bool :=
  userRoles.any (fun r => accessRoles.contains r)

/-- The `roles` decorator's gate: run the handler when allowed, otherwise raise
405 "Method is not allowed". -/
def roles_guard (userRoles accessRoles : List String) : Except HTTPError Unit :=
  if roles_allowed userRoles accessRoles then .ok ()
  else .error ⟨405, "Method is not allowed"⟩

/-- `app.database.db.UserFullModel` (`uid` kept as the string form used as the
store key). -/
structure UserFullModel where
  uid : String
  username : String
  roles : List String
  password_hash : String
deriving DecidableEq, Repr

/-- `app.models.RegistrationRequest` (the fields `create_user` reads). -/
structure RegistrationRequest where
  username : String
  password : String
  roles : List String
deriving DecidableEq, Repr

/-- The username scan of `app/services/users.py` (source name starts with an
underscore): first user, in insertion order, carrying the username. -/
def get_user_by_username (users : List (String × UserFullModel))
    (username : String) : Option UserFullModel :=
  (users.find? (fun p => p.2.username == username)).map Prod.snd

/-- `create_user`: 409 "User already exists" when the username is taken, store
untouched; otherwise store the new user under the fresh uid (`uid` stands for
the `generate_user_uid()` draw, `hashFn` for `sha256_crypt.hash`). -/
def create_user (hashFn : String → String) (uid : String)
    (users : List (String × UserFullModel)) (payload : RegistrationRequest) :
    Except HTTPError String × List (String × UserFullModel) :=
  match get_user_by_username users payload.username with
  | some _ => (.error ⟨409, "User already exists"⟩, users)
  | none =>
    (.ok uid,
     setKey users uid ⟨uid, payload.username, payload.roles, hashFn payload.password⟩)

/-! ### Lemmas about the dict model -/

theorem lookupKey_eq_none_of_hasKey_false {α : Type} {m : List (String × α)}
    {k : String} (h : hasKey m k = false) : lookupKey m k = none := by
  cases hlk : lookupKey m k with
  | none => rfl
  | some w => simp [hasKey, hlk] at h

theorem not_mem_keys_of_lookupKey_eq_none {α : Type} {m : List (String × α)}
    {k : String} (h : lookupKey m k = none) : k ∉ m.map Prod.fst := by
  induction m with
  | nil => simp
  | cons hd tl ih =>
    obtain ⟨k', v'⟩ := hd
    by_cases hk : k' = k
    · simp [lookupKey, hk] at h
    · have h' : lookupKey tl k = none := by simpa [lookupKey, hk] using h
      simp only [List.map_cons, List.mem_cons, not_or]
      exact ⟨fun h'' => hk h''.symm, ih h'⟩

theorem lookupKey_filter_of_keep {α : Type} (p : String × α → Bool)
    {m : List (String × α)} {k : String} {v : α}
    (hl : lookupKey m k = some v) (hp : p (k, v) = true) :
    lookupKey (m.filter p) k = some v := by
  induction m with
  | nil => simp [lookupKey] at hl
  | cons hd tl ih =>
    obtain ⟨k', v'⟩ := hd
    by_cases hk : k' = k
    · have hv : v' = v := by simpa [lookupKey, hk] using hl
      simp [List.filter_cons, hk, hv, hp, lookupKey]
    · have hl' : lookupKey tl k = some v := by simpa [lookupKey, hk] using hl
      cases hpk : p (k', v') <;>
        simp [List.filter_cons, hpk, lookupKey, hk, ih hl']

theorem lookupKey_filter_none_of_fail {α : Type} (p : String × α → Bool)
    {m : List (String × α)} {k : String}
    (h : ∀ v, (k, v) ∈ m → p (k, v) = false) :
    lookupKey (m.filter p) k = none := by
  induction m with
  | nil => rfl
  | cons hd tl ih =>
    obtain ⟨k', v'⟩ := hd
    have htl : ∀ v, (k, v) ∈ tl → p (k, v) = false :=
      fun v hv => h v (List.mem_cons_of_mem _ hv)
    by_cases hk : k' = k
    · have hh := h v' (hk ▸ List.mem_cons_self (k', v') tl)
      simp [List.filter_cons, hk ▸ hh, ih htl]
    · cases hpk : p (k', v') <;>
        simp [List.filter_cons, hpk, lookupKey, hk, ih htl]

theorem lookupKey_filter_of_all_keep {α : Type} (p : String × α → Bool)
    (m : List (String × α)) (k : String) (hp : ∀ v, p (k, v) = true) :
    lookupKey (m.filter p) k = lookupKey m k := by
  induction m with
  | nil => rfl
  | cons hd tl ih =>
    obtain ⟨k', v'⟩ := hd
    by_cases hk : k' = k
    · subst hk
      simp [List.filter_cons, hp v', lookupKey]
    · cases hpk : p (k', v') <;>
        simp [List.filter_cons, hpk, lookupKey, hk, ih]

theorem lookupKey_delKey_self {α : Type} (m : List (String × α)) (k : String) :
    lookupKey (delKey m k) k = none := by
  apply lookupKey_filter_none_of_fail
  intro v _
  simp

theorem lookupKey_delKey_of_ne {α : Type} (m : List (String × α)) {k r : String}
    (h : k ≠ r) : lookupKey (delKey m r) k = lookupKey m k := by
  apply lookupKey_filter_of_all_keep
  intro v
  simp [h]

theorem lookupKey_setKey_self {α : Type} (m : List (String × α)) (k : String)
    (v : α) : lookupKey (setKey m k v) k = some v := by
  induction m with
  | nil => simp [setKey, lookupKey]
  | cons hd tl ih =>
    obtain ⟨k', v'⟩ := hd
    by_cases hk : k' = k
    · simp [setKey, hk, lookupKey]
    · simp [setKey, hk, lookupKey, ih]

theorem setKey_of_lookupKey_none {α : Type} {m : List (String × α)} {k : String}
    (v : α) (h : lookupKey m k = none) : setKey m k v = m ++ [(k, v)] := by
  induction m with
  | nil => simp [setKey]
  | cons hd tl ih =>
    obtain ⟨k', v'⟩ := hd
    by_cases hk : k' = k
    · simp [lookupKey, hk] at h
    · have h' : lookupKey tl k = none := by simpa [lookupKey, hk] using h
      simp [setKey, hk, ih h']

theorem setKey_eq_self {α : Type} {m : List (String × α)} {k : String} {v : α}
    (hl : lookupKey m k = some v) : setKey m k v = m := by
  induction m with
  | nil => simp [lookupKey] at hl
  | cons hd tl ih =>
    obtain ⟨k', v'⟩ := hd
    by_cases hk : k' = k
    · have hv : v' = v := by simpa [lookupKey, hk] using hl
      simp [setKey, hk, hv]
    · have hl' : lookupKey tl k = some v := by simpa [lookupKey, hk] using hl
      simp [setKey, hk, ih hl']

theorem filter_idem {α : Type} (p : α → Bool) (l : List α) :
    (l.filter p).filter p = l.filter p := by
  induction l with
  | nil => rfl
  | cons a l ih =>
    cases h : p a <;> simp [List.filter_cons, h, ih]

theorem nodup_keys_filter {α : Type} (p : String × α → Bool)
    {m : List (String × α)} (h : (m.map Prod.fst).Nodup) :
    ((m.filter p).map Prod.fst).Nodup :=
  h.sublist ((List.filter_sublist m).map Prod.fst)

theorem keys_setKey_of_some {α : Type} {m : List (String × α)} {k : String}
    {w : α} (v : α) (hl : lookupKey m k = some w) :
    (setKey m k v).map Prod.fst = m.map Prod.fst := by
  induction m with
  | nil => simp [lookupKey] at hl
  | cons hd tl ih =>
    obtain ⟨k', v'⟩ := hd
    by_cases hk : k' = k
    · simp [setKey, hk]
    · have hl' : lookupKey tl k = some w := by simpa [lookupKey, hk] using hl
      simp [setKey, hk, ih hl']

theorem nodup_keys_setKey {α : Type} {m : List (String × α)} (k : String) (v : α)
    (h : (m.map Prod.fst).Nodup) : ((setKey m k v).map Prod.fst).Nodup := by
  cases hlk : lookupKey m k with
  | some w => simpa [keys_setKey_of_some v hlk] using h
  | none =>
    have hnm := not_mem_keys_of_lookupKey_eq_none hlk
    rw [setKey_of_lookupKey_none v hlk, List.map_append]
    refine List.Nodup.append h (List.nodup_singleton _) ?_
    intro a ha hb
    simp only [List.map_cons, List.map_nil, List.mem_singleton] at hb
    subst hb
    exact hnm ha

theorem mem_setKey_self {α : Type} {m : List (String × α)} {k : String} {v v' : α}
    (hnd : (m.map Prod.fst).Nodup) (h : (k, v') ∈ setKey m k v) : v' = v := by
  induction m with
  | nil =>
    simp [setKey] at h
    exact h
  | cons hd tl ih =>
    obtain ⟨k', w⟩ := hd
    simp only [List.map_cons, List.nodup_cons] at hnd
    by_cases hk : k' = k
    · subst hk
      simp only [setKey, if_pos rfl] at h
      rcases List.mem_cons.mp h with h | h
      · exact congrArg Prod.snd h
      · exact absurd (List.mem_map_of_mem Prod.fst h) hnd.1
    · simp only [setKey, if_neg hk] at h
      rcases List.mem_cons.mp h with h | h
      · exact absurd (congrArg Prod.fst h).symm hk
      · exact ih hnd.2 h

/-! ### Claim theorems -/

/-- C2 (counterexample): the payload built by `create_jwt_token` carries no
`roles` claim at all, contradicting "the signed payload carries at minimum …
roles". -/
theorem create_jwt_token_payload_no_roles_cex :
    lookupKey (create_jwt_token_payload "u" "j" 0 15) "roles" = none := by
  rfl

/-- C2 (amended): every access-token payload embeds `sub` = the subject id,
`iat = now`, `exp = now + ttl`, the fresh random `jti`, and a `type` claim set
to "access" — exactly the keys `sub, exp, iat, jti, type`, with no `roles`
claim. -/
theorem create_jwt_token_payload_spec (uid jti : String) (now minutes : Int) :
    lookupKey (create_jwt_token_payload uid jti now minutes) "sub"
      = some (.str uid)
    ∧ lookupKey (create_jwt_token_payload uid jti now minutes) "iat"
      = some (.num now)
    ∧ lookupKey (create_jwt_token_payload uid jti now minutes) "exp"
      = some (.num (now + minutes * 60))
    ∧ lookupKey (create_jwt_token_payload uid jti now minutes) "jti"
      = some (.str jti)
    ∧ lookupKey (create_jwt_token_payload uid jti now minutes) "type"
      = some (.str "access")
    ∧ (create_jwt_token_payload uid jti now minutes).map Prod.fst
      = ["sub", "exp", "iat", "jti", "type"] := by
  refine ⟨?_, ?_, ?_, ?_, ?_, ?_⟩ <;> simp [create_jwt_token_payload, lookupKey]

/-- C5 (counterexample): at the boundary `now = expiry` the code returns the
record and keeps the entry, while the claim demands failure (and deletion)
"whenever now >= expiry". -/
theorem validate_refresh_token_boundary_cex :
    validate_refresh_token 100 [("r", ⟨"u", 100, false⟩)] "r"
      = (.ok ⟨"u", 100, false⟩, [("r", ⟨"u", 100, false⟩)]) := by
  rfl

/-- C5 (amended): `validate_refresh_token` fails with "Invalid refresh token"
when the string is absent; fails with "Refresh token has expired" and deletes
the entry exactly when `expiry < now` (strict), after which the same string
fails with "Invalid refresh token"; otherwise returns the record without
deleting it. -/
theorem validate_refresh_token_spec (now : Int)
    (rt : List (String × RefreshTokenInfo)) (t : String) :
    (lookupKey rt t = none →
      validate_refresh_token now rt t
        = (.error ⟨401, "Invalid refresh token"⟩, rt))
    ∧ (∀ info, lookupKey rt t = some info → info.exp < now →
        validate_refresh_token now rt t
          = (.error ⟨401, "Refresh token has expired"⟩, delKey rt t)
        ∧ validate_refresh_token now (delKey rt t) t
          = (.error ⟨401, "Invalid refresh token"⟩, delKey rt t))
    ∧ (∀ info, lookupKey rt t = some info → ¬ info.exp < now →
        validate_refresh_token now rt t = (.ok info, rt)) := by
  refine ⟨?_, ?_, ?_⟩
  · intro h
    simp [validate_refresh_token, h]
  · intro info h hlt
    constructor
    · simp [validate_refresh_token, h, hlt]
    · simp [validate_refresh_token, lookupKey_delKey_self]
  · intro info h hge
    simp [validate_refresh_token, h, hge]

/-- C5 (witness): a concrete expired entry is rejected, deleted, and rejected
again with "Invalid refresh token" on the second call. -/
theorem validate_refresh_token_spec_witness :
    validate_refresh_token 100 [("r", ⟨"u", 50, false⟩)] "r"
      = (.error ⟨401, "Refresh token has expired"⟩,
         delKey [("r", ⟨"u", 50, false⟩)] "r")
    ∧ validate_refresh_token 100 (delKey [("r", ⟨"u", 50, false⟩)] "r") "r"
      = (.error ⟨401, "Invalid refresh token"⟩,
         delKey [("r", ⟨"u", 50, false⟩)] "r") :=
  (validate_refresh_token_spec 100 [("r", ⟨"u", 50, false⟩)] "r").2.1
    ⟨"u", 50, false⟩ (by rfl) (by decide)

/-- C7 (counterexample): an entry whose recorded expiry equals `now` is
retained by the purge, while the claim demands removal of every entry with
"expiry ≤ now". -/
theorem cleanup_blacklist_boundary_cex :
    cleanup_expired_blacklisted_tokens 100 [("t", 100)] = [("t", 100)] := by
  rfl

/-- C7 (amended): the purge removes exactly the blacklist entries whose
recorded expiry is strictly before `now` (entries with expiry ≥ now, including
expiry = now, are retained); in particular an already-expired entry and a
not-yet-expired one purge down to the latter alone. -/
theorem cleanup_blacklist_spec (now : Int) (bl : List (String × Int)) :
    (∀ p : String × Int,
      p ∈ cleanup_expired_blacklisted_tokens now bl ↔ p ∈ bl ∧ ¬ p.2 < now)
    ∧ cleanup_expired_blacklisted_tokens 100 [("old", 50), ("new", 150)]
      = [("new", 150)] := by
  constructor
  · intro p
    simp [cleanup_expired_blacklisted_tokens, List.mem_filter]
  · rfl

/-- C9 (counterexample): the role gate denies with HTTP 405
"Method is not allowed", not with 403 Forbidden as the claim states. -/
theorem roles_denied_status_cex :
    roles_guard ["user"] ["admin"] = .error ⟨405, "Method is not allowed"⟩
    ∧ (405 : Nat) ≠ 403 := by
  exact ⟨by rfl, by decide⟩

/-- C9 (amended): access is allowed iff the principal's roles intersect the
required roles (any-of semantics): `{"user"}` vs `{"admin"}` is denied and
`{"admin","user"}` vs `{"admin"}` is allowed; denial raises HTTP 405
"Method is not allowed" (distinct from 401, but not 403 Forbidden). -/
theorem roles_gate_spec (userRoles accessRoles : List String) :
    (roles_allowed userRoles accessRoles = true
      ↔ ∃ r, r ∈ userRoles ∧ r ∈ accessRoles)
    ∧ (roles_allowed userRoles accessRoles = true →
        roles_guard userRoles accessRoles = .ok ())
    ∧ (roles_allowed userRoles accessRoles = false →
        roles_guard userRoles accessRoles
          = .error ⟨405, "Method is not allowed"⟩)
    ∧ roles_allowed ["user"] ["admin"] = false
    ∧ roles_allowed ["admin", "user"] ["admin"] = true := by
  refine ⟨?_, ?_, ?_, by decide, by decide⟩
  · simp [roles_allowed, List.any_eq_true]
  · intro h
    simp [roles_guard, h]
  · intro h
    simp [roles_guard, h]

/-- C9 (witness): the amended role-gate statement at the claim's own
example inputs. -/
theorem roles_gate_spec_witness :
    (roles_allowed ["user"] ["admin"] = true
      ↔ ∃ r, r ∈ ["user"] ∧ r ∈ ["admin"])
    ∧ (roles_allowed ["user"] ["admin"] = true →
        roles_guard ["user"] ["admin"] = .ok ())
    ∧ (roles_allowed ["user"] ["admin"] = false →
        roles_guard ["user"] ["admin"]
          = .error ⟨405, "Method is not allowed"⟩)
    ∧ roles_allowed ["user"] ["admin"] = false
    ∧ roles_allowed ["admin", "user"] ["admin"] = true :=
  roles_gate_spec ["user"] ["admin"]

/-- C4: with rotation disabled, refreshing a stored non-expired token succeeds,
returns the unchanged refresh-token string alongside the fresh access token,
and leaves the refresh-token store entirely untouched — so the call can be
repeated until the token's own expiry. -/
theorem refresh_no_rotation_stable (s : Settings) (now : Int)
    (rt : List (String × RefreshTokenInfo)) (r newAccess fresh : String)
    (info : RefreshTokenInfo)
    (hrot : s.ROTATE_REFRESH = false)
    (hr : lookupKey rt r = some info)
    (hexp : ¬ info.exp < now) :
    generate_refresh_token s now rt r newAccess fresh
      = (.ok ⟨newAccess, r⟩, rt) := by
  simp [generate_refresh_token, validate_refresh_token, hr, hexp, hrot]

/-- C4 (witness): a concrete non-expired entry refreshed without rotation
returns the same string and the same store. -/
theorem refresh_no_rotation_stable_witness :
    generate_refresh_token ⟨15, 30, 7, false⟩ 100
        [("r", ⟨"u", 200, false⟩)] "r" "a" "f"
      = (.ok ⟨"a", "r"⟩, [("r", ⟨"u", 200, false⟩)]) :=
  refresh_no_rotation_stable ⟨15, 30, 7, false⟩ 100
    [("r", ⟨"u", 200, false⟩)] "r" "a" "f" ⟨"u", 200, false⟩
    rfl (by rfl) (by decide)

/-- C3: with rotation enabled, the first refresh of a stored non-expired token
succeeds with a fresh refresh-token string different from the input (the fresh
random draw is not a key of the store), deletes the input token's entry, and
an immediately repeated refresh of the same string fails with
"Invalid refresh token". -/
theorem refresh_rotation_single_use (s : Settings) (now : Int)
    (rt : List (String × RefreshTokenInfo)) (r newA fresh newA2 fresh2 : String)
    (info : RefreshTokenInfo)
    (hrot : s.ROTATE_REFRESH = true)
    (hr : lookupKey rt r = some info)
    (hexp : ¬ info.exp < now)
    (hfresh : lookupKey rt fresh = none) :
    (generate_refresh_token s now rt r newA fresh).1 = .ok ⟨newA, fresh⟩
    ∧ fresh ≠ r
    ∧ lookupKey (generate_refresh_token s now rt r newA fresh).2 r = none
    ∧ generate_refresh_token s now
        (generate_refresh_token s now rt r newA fresh).2 r newA2 fresh2
      = (.error ⟨401, "Invalid refresh token"⟩,
         (generate_refresh_token s now rt r newA fresh).2) := by
  have hne : fresh ≠ r := by
    intro h
    rw [h, hr] at hfresh
    exact Option.noConfusion hfresh
  have hstore : (generate_refresh_token s now rt r newA fresh).2
      = delKey (cleanup_expired_refresh_tokens none now
          (setKey rt fresh
            ⟨info.sub, refreshExpire s now info.is_remember_me,
             info.is_remember_me⟩)) r := by
    simp [generate_refresh_token, validate_refresh_token, hr, hexp, hrot,
      create_refresh_token]
  have hnone : lookupKey (generate_refresh_token s now rt r newA fresh).2 r
      = none := by
    rw [hstore]
    exact lookupKey_delKey_self _ _
  refine ⟨?_, hne, hnone, ?_⟩
  · simp [generate_refresh_token, validate_refresh_token, hr, hexp, hrot,
      create_refresh_token]
  · generalize hG : (generate_refresh_token s now rt r newA fresh).2 = rt1 at hnone ⊢
    simp [generate_refresh_token, validate_refresh_token, hnone]

/-- C3 (witness): a concrete rotation-enabled refresh is single-use. -/
theorem refresh_rotation_single_use_witness :
    (generate_refresh_token ⟨15, 30, 7, true⟩ 100
        [("r", ⟨"u", 200, true⟩)] "r" "a" "f").1 = .ok ⟨"a", "f"⟩
    ∧ "f" ≠ "r"
    ∧ lookupKey (generate_refresh_token ⟨15, 30, 7, true⟩ 100
        [("r", ⟨"u", 200, true⟩)] "r" "a" "f").2 "r" = none
    ∧ generate_refresh_token ⟨15, 30, 7, true⟩ 100
        (generate_refresh_token ⟨15, 30, 7, true⟩ 100
          [("r", ⟨"u", 200, true⟩)] "r" "a" "f").2 "r" "a2" "f2"
      = (.error ⟨401, "Invalid refresh token"⟩,
         (generate_refresh_token ⟨15, 30, 7, true⟩ 100
           [("r", ⟨"u", 200, true⟩)] "r" "a" "f").2) :=
  refresh_rotation_single_use ⟨15, 30, 7, true⟩ 100
    [("r", ⟨"u", 200, true⟩)] "r" "a" "f" "a2" "f2" ⟨"u", 200, true⟩
    rfl (by rfl) (by decide) (by decide)

/-- C10: `create_user` preserves username uniqueness and is atomic on failure:
when the username is already taken the call fails with "User already exists"
and the store is unchanged; otherwise (with the generated uid not colliding
with an existing key) exactly one entry is appended, carrying the requested
username, roles, and the hash of the requested password, and every
pre-existing entry is untouched. -/
theorem create_user_spec (hashFn : String → String) (uid : String)
    (users : List (String × UserFullModel)) (payload : RegistrationRequest) :
    (get_user_by_username users payload.username ≠ none →
      create_user hashFn uid users payload
        = (.error ⟨409, "User already exists"⟩, users))
    ∧ (get_user_by_username users payload.username = none →
       lookupKey users uid = none →
       create_user hashFn uid users payload
         = (.ok uid,
            users ++ [(uid, ⟨uid, payload.username, payload.roles,
              hashFn payload.password⟩)])) := by
  constructor
  · intro h
    match he : get_user_by_username users payload.username with
    | none => exact absurd he h
    | some u => simp [create_user, he]
  · intro he hf
    simp [create_user, he, setKey_of_lookupKey_none _ hf]

/-- C10 (witness): registering a fresh username appends exactly one entry and
keeps the existing one; the stored entry hashes the password. -/
theorem create_user_spec_witness :
    create_user (fun s => s ++ "#") "u2"
        [("u1", ⟨"u1", "bob", ["user"], "h1"⟩)] ⟨"alice", "pw", ["admin"]⟩
      = (.ok "u2",
         [("u1", ⟨"u1", "bob", ["user"], "h1"⟩),
          ("u2", ⟨"u2", "alice", ["admin"], "pw" ++ "#"⟩)]) :=
  (create_user_spec (fun s => s ++ "#") "u2"
    [("u1", ⟨"u1", "bob", ["user"], "h1"⟩)] ⟨"alice", "pw", ["admin"]⟩).2
    (by rfl) (by rfl)

/-- C1 (counterexample): logout with access token decoding to subject "alice"
also deletes a second, non-expired refresh token of the same subject that was
not supplied to the call — family-wide invalidation by subject, contradicting
"every other non-expired refresh token … is still present". -/
theorem logout_family_invalidation_cex :
    lookupKey (logout "acc" "r" (.ok ⟨some "alice", some 150⟩) 100
      ⟨[], [("r", ⟨"alice", 200, false⟩),
            ("r2", ⟨"alice", 200, false⟩)]⟩).refresh_tokens "r2" = none := by
  rfl

/-- C1 (amended): logout blacklists the supplied access token (when it decodes
with a truthy non-zero `exp`) and removes the supplied refresh token; it also
removes every refresh token that is expired or whose subject equals the access
token's `sub` claim. Any other refresh token — one that is not the supplied
string, not expired, and not owned by the access token's subject — is
preserved with its record intact. -/
theorem logout_scope (access refresh r2 : String) (d : DecodeResult) (now : Int)
    (st : AuthState) (info : RefreshTokenInfo)
    (hne : r2 ≠ refresh)
    (hl : lookupKey st.refresh_tokens r2 = some info)
    (hkeep : ∀ c, d = .ok c → refreshExpiredOrSub c.sub now info = false) :
    lookupKey (logout access refresh d now st).refresh_tokens r2 = some info
    ∧ lookupKey (logout access refresh d now st).refresh_tokens refresh = none
    ∧ (∀ c e, d = .ok c → c.exp = some e → e ≠ 0 → ¬ e < now →
        hasKey (logout access refresh d now st).blacklisted_tokens access
          = true) := by
  have hrt1 : lookupKey (blacklist_token access d now st).refresh_tokens r2
      = some info := by
    cases d with
    | ok c =>
      have hkb : (fun p : String × RefreshTokenInfo =>
          !(refreshExpiredOrSub c.sub now p.2)) (r2, info) = true := by
        simp [hkeep c rfl]
      cases hce : c.exp with
      | none =>
        simpa [blacklist_token, hce, cleanup_expired_refresh_tokens] using
          lookupKey_filter_of_keep _ hl hkb
      | some e =>
        by_cases hz : e = 0
        · simpa [blacklist_token, hce, hz, cleanup_expired_refresh_tokens] using
            lookupKey_filter_of_keep _ hl hkb
        · simpa [blacklist_token, hce, hz, cleanup_expired_refresh_tokens] using
            lookupKey_filter_of_keep _ hl hkb
    | expiredSig => simpa [blacklist_token] using hl
    | invalidTok => simpa [blacklist_token] using hl
  refine ⟨?_, ?_, ?_⟩
  · simpa [logout, revoke_refresh_token, lookupKey_delKey_of_ne _ hne] using hrt1
  · simp [logout, revoke_refresh_token, lookupKey_delKey_self]
  · intro c e hd hce hz hlt
    subst hd
    have hsome : lookupKey (cleanup_expired_blacklisted_tokens now
        (setKey st.blacklisted_tokens access e)) access = some e := by
      apply lookupKey_filter_of_keep
      · exact lookupKey_setKey_self _ _ _
      · simp [hlt]
    simp [logout, blacklist_token, hce, hz, hasKey, hsome]

/-- C1 (witness): in a two-subject store, logging out alice's pair keeps bob's
non-expired refresh token, removes the supplied one, and blacklists the access
token. -/
theorem logout_scope_witness :
    lookupKey (logout "acc" "r" (.ok ⟨some "alice", some 150⟩) 100
        ⟨[], [("r", ⟨"alice", 200, false⟩),
              ("rb", ⟨"bob", 200, false⟩)]⟩).refresh_tokens "rb"
      = some ⟨"bob", 200, false⟩
    ∧ lookupKey (logout "acc" "r" (.ok ⟨some "alice", some 150⟩) 100
        ⟨[], [("r", ⟨"alice", 200, false⟩),
              ("rb", ⟨"bob", 200, false⟩)]⟩).refresh_tokens "r" = none
    ∧ (∀ c e, DecodeResult.ok ⟨some "alice", some 150⟩ = .ok c →
        Claims.exp c = some e → e ≠ 0 → ¬ e < 100 →
        hasKey (logout "acc" "r" (.ok ⟨some "alice", some 150⟩) 100
          ⟨[], [("r", ⟨"alice", 200, false⟩),
                ("rb", ⟨"bob", 200, false⟩)]⟩).blacklisted_tokens "acc"
          = true) :=
  logout_scope "acc" "r" "rb" (.ok ⟨some "alice", some 150⟩) 100
    ⟨[], [("r", ⟨"alice", 200, false⟩), ("rb", ⟨"bob", 200, false⟩)]⟩
    ⟨"bob", 200, false⟩ (by decide) (by rfl)
    (by intro c hc; cases hc; decide)

/-- C6: after logout on a decodable access token with a future, non-zero
expiry, any decode of that access token fails 401 "Token has been revoked"
(whatever the codec would now say), and refreshing the revoked refresh token
fails 401 "Invalid refresh token" because its entry is gone from the store. -/
theorem logout_then_reject (access refresh : String) (c : Claims) (e : Int)
    (now : Int) (st : AuthState) (d2 : DecodeResult) (s : Settings)
    (newA fresh : String)
    (hce : c.exp = some e) (hz : e ≠ 0) (hfut : ¬ e < now) :
    decode_jwt_token access d2
        (logout access refresh (.ok c) now st).blacklisted_tokens
      = .error ⟨401, "Token has been revoked"⟩
    ∧ (generate_refresh_token s now
        (logout access refresh (.ok c) now st).refresh_tokens refresh
        newA fresh).1
      = .error ⟨401, "Invalid refresh token"⟩ := by
  constructor
  · have hsome : lookupKey (cleanup_expired_blacklisted_tokens now
        (setKey st.blacklisted_tokens access e)) access = some e := by
      apply lookupKey_filter_of_keep
      · exact lookupKey_setKey_self _ _ _
      · simp [hfut]
    have hhas : hasKey
        (logout access refresh (.ok c) now st).blacklisted_tokens access
        = true := by
      simp [logout, blacklist_token, hce, hz, hasKey, hsome]
    simp [decode_jwt_token, hhas]
  · have hnone : lookupKey
        (logout access refresh (.ok c) now st).refresh_tokens refresh = none := by
      simp [logout, revoke_refresh_token, lookupKey_delKey_self]
    simp [generate_refresh_token, validate_refresh_token, hnone]

/-- C6 (witness): a concrete logged-out pair is rejected on both paths. -/
theorem logout_then_reject_witness :
    decode_jwt_token "acc" .invalidTok
        (logout "acc" "r" (.ok ⟨some "u", some 150⟩) 100
          ⟨[], [("r", ⟨"u", 200, false⟩)]⟩).blacklisted_tokens
      = .error ⟨401, "Token has been revoked"⟩
    ∧ (generate_refresh_token ⟨15, 30, 7, false⟩ 100
        (logout "acc" "r" (.ok ⟨some "u", some 150⟩) 100
          ⟨[], [("r", ⟨"u", 200, false⟩)]⟩).refresh_tokens "r" "na" "f").1
      = .error ⟨401, "Invalid refresh token"⟩ :=
  logout_then_reject "acc" "r" ⟨some "u", some 150⟩ 150 100
    ⟨[], [("r", ⟨"u", 200, false⟩)]⟩ .invalidTok ⟨15, 30, 7, false⟩ "na" "f"
    rfl (by decide) (by decide)

/-- C8: `blacklist_token` never raises and is idempotent: on any token whose
decode fails (tampered, malformed, or expired signature) the whole state —
in particular the blacklist — is left unchanged and no error is signalled, and
applying the operation twice with the same token, decode outcome, and clock
leaves the state exactly as applying it once. -/
theorem blacklist_token_idempotent (token : String) (d : DecodeResult)
    (now : Int) (st : AuthState)
    (hnd : (st.blacklisted_tokens.map Prod.fst).Nodup) :
    blacklist_token token .expiredSig now st = st
    ∧ blacklist_token token .invalidTok now st = st
    ∧ blacklist_token token d now (blacklist_token token d now st)
      = blacklist_token token d now st := by
  refine ⟨rfl, rfl, ?_⟩
  cases d with
  | expiredSig => rfl
  | invalidTok => rfl
  | ok c =>
    have hrt : cleanup_expired_refresh_tokens c.sub now
        (cleanup_expired_refresh_tokens c.sub now st.refresh_tokens)
        = cleanup_expired_refresh_tokens c.sub now st.refresh_tokens :=
      filter_idem _ _
    cases hce : c.exp with
    | none => simp [blacklist_token, hce, hrt]
    | some e =>
      by_cases hz : e = 0
      · simp [blacklist_token, hce, hz, hrt]
      · have hcl : cleanup_expired_blacklisted_tokens now
            (cleanup_expired_blacklisted_tokens now
              (setKey st.blacklisted_tokens token e))
            = cleanup_expired_blacklisted_tokens now
              (setKey st.blacklisted_tokens token e) :=
          filter_idem _ _
        have hbl : cleanup_expired_blacklisted_tokens now
            (setKey (cleanup_expired_blacklisted_tokens now
              (setKey st.blacklisted_tokens token e)) token e)
            = cleanup_expired_blacklisted_tokens now
              (setKey st.blacklisted_tokens token e) := by
          by_cases hlt : e < now
          · have hfail : ∀ v, (token, v) ∈ setKey st.blacklisted_tokens token e →
                (fun p : String × Int => !(decide (p.2 < now))) (token, v)
                  = false := by
              intro v hv
              have hve := mem_setKey_self hnd hv
              subst hve
              simp [hlt]
            have hnone : lookupKey (cleanup_expired_blacklisted_tokens now
                (setKey st.blacklisted_tokens token e)) token = none :=
              lookupKey_filter_none_of_fail _ hfail
            rw [setKey_of_lookupKey_none _ hnone]
            simp [cleanup_expired_blacklisted_tokens, List.filter_append, hlt,
              filter_idem]
          · have hsome : lookupKey (cleanup_expired_blacklisted_tokens now
                (setKey st.blacklisted_tokens token e)) token = some e := by
              apply lookupKey_filter_of_keep
              · exact lookupKey_setKey_self _ _ _
              · simp [hlt]
            rw [setKey_eq_self hsome]
            exact hcl
        simp [blacklist_token, hce, hz, hrt, hbl]

/-- C8 (witness): the never-fails and idempotence statement at a concrete
state with a decodable token. -/
theorem blacklist_token_idempotent_witness :
    blacklist_token "t" .expiredSig 50 ⟨[("b", 99)], [("r", ⟨"u", 200, false⟩)]⟩
      = ⟨[("b", 99)], [("r", ⟨"u", 200, false⟩)]⟩
    ∧ blacklist_token "t" .invalidTok 50 ⟨[("b", 99)], [("r", ⟨"u", 200, false⟩)]⟩
      = ⟨[("b", 99)], [("r", ⟨"u", 200, false⟩)]⟩
    ∧ blacklist_token "t" (.ok ⟨some "u", some 100⟩) 50
        (blacklist_token "t" (.ok ⟨some "u", some 100⟩) 50
          ⟨[("b", 99)], [("r", ⟨"u", 200, false⟩)]⟩)
      = blacklist_token "t" (.ok ⟨some "u", some 100⟩) 50
          ⟨[("b", 99)], [("r", ⟨"u", 200, false⟩)]⟩ :=
  blacklist_token_idempotent "t" (.ok ⟨some "u", some 100⟩) 50
    ⟨[("b", 99)], [("r", ⟨"u", 200, false⟩)]⟩ (by decide)

